import Mathlib

/-!
Shallow embedding of the collaborative coding-interview backend
(directory `02-coding-interview/backend/app`).

Conventions of the embedding:
- Python `datetime` values are modelled as `Int` clock readings measured in
  seconds; `datetime.now()` becomes an explicit `now : Int` parameter threaded
  through each operation, and `timedelta(minutes=1)` becomes the literal `60`.
- Python dictionaries (`Dict[str, ...]`) are modelled as insertion-ordered
  association lists with `dictGet` / `dictSet` / `dictRemove` mirroring
  `d.get(k)`, `d[k] = v` and `del d[k]`.
- In-place mutation of objects reached through a dictionary is modelled by
  state passing: a method that mutates a session returns the new store.
- Exceptions raised by the service layer (`SessionNotFoundException`,
  `SessionFullException`) become an `Except SessionError` result paired with
  the (unchanged) store, so that "raises before mutating" is visible.
-/

namespace CodingInterview

/-! ## Ordered dictionaries (Python dict on string keys) -/

/-- `d.get(k)`: first binding of key `k`, if any. -/
def dictGet {α : Type} : List (String × α) → String → Option α
  | [], _ => none
  | (k, v) :: rest, key => if k = key then some v else dictGet rest key

/-- `d[k] = v`: replace the existing binding in place, else append a new one
(Python dicts preserve insertion order). -/
def dictSet {α : Type} : List (String × α) → String → α → List (String × α)
  | [], key, v => [(key, v)]
  | (k, w) :: rest, key, v =>
      if k = key then (key, v) :: rest else (k, w) :: dictSet rest key v

/-- `del d[k]` (a no-op when the key is absent, used where the source guards
with `if k in d`). -/
def dictRemove {α : Type} : List (String × α) → String → List (String × α)
  | [], _ => []
  | (k, v) :: rest, key => if k = key then rest else (k, v) :: dictRemove rest key

/-! ## Domain model (`app/models/domain.py`) -/

/-- `SessionStatus` enum. -/
inductive SessionStatus where
  | active
  | completed
  | archived
deriving DecidableEq

/-- `ParticipantRole` enum. -/
inductive ParticipantRole where
  | host
  | participant
  | viewer
deriving DecidableEq

/-- `Participant` dataclass. -/
structure Participant where
  client_id : String
  display_name : String
  role : ParticipantRole
  joined_at : Int
  connection_id : Option String := none
  is_connected : Bool := true
deriving DecidableEq

/-- `ExecutionResult` dataclass. -/
structure ExecutionResult where
  session_id : String
  language : String
  stdout : String
  stderr : String
  exit_code : Int
  duration_ms : Nat
  success : Bool
  error : Option String := none
  timestamp : Int
  executed_by : Option String := none
deriving DecidableEq

/-- `Session` dataclass. -/
structure Session where
  session_id : String
  created_at : Int
  host_name : String
  session_name : Option String := none
  status : SessionStatus := .active
  current_code : String := ""
  current_language : String := "javascript"
  participants : List Participant := []
  execution_history : List ExecutionResult := []
  updated_at : Int
  max_participants : Nat := 10
deriving DecidableEq

/-- `Session.participant_count` property: connected participants only. -/
def Session.participant_count (s : Session) : Nat :=
  (s.participants.filter (fun p => p.is_connected)).length

/-- `Session.is_full` property: `participant_count >= max_participants`. -/
def Session.is_full (s : Session) : Bool :=
  s.participant_count ≥ s.max_participants

/-- `Session.add_participant`: drop any records with the same `client_id`,
then append the new record and refresh `updated_at`. -/
def Session.add_participant (s : Session) (participant : Participant) (now : Int) : Session :=
  { s with
    participants :=
      (s.participants.filter (fun p => p.client_id ≠ participant.client_id)) ++ [participant],
    updated_at := now }

/-- The loop body of `Session.remove_participant`: mark the first record with
the given `client_id` as disconnected (`break` after the first match). -/
def markFirstDisconnected : List Participant → String → List Participant
  | [], _ => []
  | p :: ps, cid =>
      if p.client_id = cid then { p with is_connected := false } :: ps
      else p :: markFirstDisconnected ps cid

/-- `Session.remove_participant`: soft-delete (mark disconnected), never
removes the record; `updated_at` is refreshed unconditionally. -/
def Session.remove_participant (s : Session) (client_id : String) (now : Int) : Session :=
  { s with
    participants := markFirstDisconnected s.participants client_id,
    updated_at := now }

/-- `Session.get_participant`: first record with the given `client_id`. -/
def Session.get_participant (s : Session) (client_id : String) : Option Participant :=
  s.participants.find? (fun p => p.client_id = client_id)

/-- `Session.update_code`. -/
def Session.update_code (s : Session) (code language : String) (now : Int) : Session :=
  { s with current_code := code, current_language := language, updated_at := now }

/-- The list transformation inside `Session.add_execution_result`: append, then
keep only the last `cap` entries (`history[-cap:]`) when the length exceeds
`cap`. -/
def cappedAppend {α : Type} (cap : Nat) (history : List α) (r : α) : List α :=
  let h2 := history ++ [r]
  if h2.length > cap then h2.drop (h2.length - cap) else h2

/-- `Session.add_execution_result`: bounded history with capacity 50. -/
def Session.add_execution_result (s : Session) (result : ExecutionResult) (now : Int) : Session :=
  { s with
    execution_history := cappedAppend 50 s.execution_history result,
    updated_at := now }

/-- A sequence of `add_execution_result` calls on one session. -/
def appendResults (s : Session) (rs : List ExecutionResult) (now : Int) : Session :=
  rs.foldl (fun acc r => acc.add_execution_result r now) s

/-! ## Session manager (`app/services/session_manager.py`) -/

/-- The exceptions raised by the session manager
(`app/core/exceptions.py`): `SessionNotFoundException` and
`SessionFullException`. -/
inductive SessionError where
  | notFound (session_id : String)
  | full (session_id : String) (max_participants : Nat)
deriving DecidableEq

/-- The manager state `self._sessions : Dict[str, Session]`. -/
def Store : Type := List (String × Session)

/-- `SessionManager.get_session`: raises `SessionNotFoundException` when the
identifier is absent. -/
def getSession (store : Store) (session_id : String) : Except SessionError Session :=
  match dictGet store session_id with
  | some s => .ok s
  | none => .error (.notFound session_id)

/-- Default-code dictionary inside `SessionManager._get_default_code`. -/
def templates : List (String × String) :=
  [("javascript", "// Welcome to the coding interview platform!\n// Start writing your JavaScript code here\n\nfunction solution() \x7b\n  console.log(\"Hello, World!\");\n\x7d\n\nsolution();"),
   ("python", "# Welcome to the coding interview platform!\n# Start writing your Python code here\n\ndef solution():\n    print(\"Hello, World!\")\n\nsolution()"),
   ("java", "// Welcome to the coding interview platform!\n// Start writing your Java code here\n\npublic class Main \x7b\n    public static void main(String[] args) \x7b\n        System.out.println(\"Hello, World!\");\n    \x7d\n\x7d"),
   ("cpp", "// Welcome to the coding interview platform!\n// Start writing your C++ code here\n\n#include <iostream>\nusing namespace std;\n\nint main() \x7b\n    cout << \"Hello, World!\" << endl;\n    return 0;\n\x7d")]

/-- `SessionManager._get_default_code`: `templates.get(language, fallback)`. -/
def get_default_code (language : String) : String :=
  (dictGet templates language).getD "// Start coding here..."

/-- `SessionManager._cleanup_old_sessions`: only when the store holds at least
100 sessions, drop the sessions whose `updated_at` is before the cutoff AND
whose status is not `active`. -/
def cleanup_old_sessions (store : Store) (now : Int) (max_age_hours : Int) : Store :=
  if store.length < 100 then store
  else
    store.filter
      (fun kv => ¬(kv.2.updated_at < now - max_age_hours * 3600 ∧ kv.2.status ≠ .active))

/-- `SessionManager.create_session`. The generated identifier is passed in as
`session_id`: `_generate_session_id` draws random identifiers and retries until
the identifier is not yet a key of the store, so the embedding takes the fresh
identifier as a parameter. -/
def SessionManager.create_session (store : Store) (host_name : String)
    (session_name : Option String) (initial_language : String)
    (max_participants : Nat) (session_id : String) (now : Int)
    (max_age_hours : Int) : Session × Store :=
  let default_code := get_default_code initial_language
  let session : Session :=
    { session_id := session_id
      created_at := now
      host_name := host_name
      session_name := session_name
      status := .active
      current_code := default_code
      current_language := initial_language
      participants := []
      execution_history := []
      updated_at := now
      max_participants := max_participants }
  (session, cleanup_old_sessions (dictSet store session_id session) now max_age_hours)

/-- `SessionManager.update_session_code`: fetch, mutate in place, return. -/
def SessionManager.update_session_code (store : Store) (session_id code language : String)
    (now : Int) : Except SessionError Session × Store :=
  match getSession store session_id with
  | .error e => (.error e, store)
  | .ok session =>
      let updated := session.update_code code language now
      (.ok updated, dictSet store session_id updated)

/-- `SessionManager.add_participant`: reject with `SessionFullException` when
the session is full and the client is not already a member (a rejoin skips the
capacity check); otherwise build the participant record and add it. -/
def SessionManager.add_participant (store : Store) (session_id client_id display_name : String)
    (role : ParticipantRole) (connection_id : Option String) (now : Int) :
    Except SessionError Participant × Store :=
  match getSession store session_id with
  | .error e => (.error e, store)
  | .ok session =>
      let existing := session.get_participant client_id
      if existing.isNone && session.is_full then
        (.error (.full session_id session.max_participants), store)
      else
        let participant : Participant :=
          { client_id := client_id
            display_name := display_name
            role := role
            joined_at := now
            connection_id := connection_id
            is_connected := true }
        (.ok participant, dictSet store session_id (session.add_participant participant now))

/-- `SessionManager.remove_participant`: fetch, then soft-delete. -/
def SessionManager.remove_participant (store : Store) (session_id client_id : String)
    (now : Int) : Except SessionError Unit × Store :=
  match getSession store session_id with
  | .error e => (.error e, store)
  | .ok session =>
      (.ok (), dictSet store session_id (session.remove_participant client_id now))

/-- `SessionManager.check_rate_limit` acting on one session's timestamp list
(`self._execution_counts[session_id]`): discard entries at or before
`now - 60` seconds, admit and record when the remaining count is below the
configured per-minute ceiling, otherwise refuse without recording. -/
def check_rate_limit (limit : Nat) (timestamps : List Int) (now : Int) : Bool × List Int :=
  let kept := timestamps.filter (fun dt => now - 60 < dt)
  if kept.length ≥ limit then (false, kept)
  else (true, kept ++ [now])

/-- A sequence of `check_rate_limit` calls at the given call times, returning
the admission verdicts in order. -/
def admitSeq (limit : Nat) : List Int → List Int → List Bool
  | _, [] => []
  | ts, now :: rest =>
      match check_rate_limit limit ts now with
      | (ok, ts2) => ok :: admitSeq limit ts2 rest

/-- The timestamp list left behind by a sequence of `check_rate_limit` calls. -/
def admitSeqState (limit : Nat) (ts : List Int) (times : List Int) : List Int :=
  times.foldl (fun acc now => (check_rate_limit limit acc now).2) ts

/-! ## Domain-level participant operation sequences (for the uniqueness
invariant) -/

/-- One participant-list mutation on a session: `Session.add_participant` or
`Session.remove_participant`. -/
inductive ParticipantOp where
  | add (p : Participant) (now : Int)
  | remove (client_id : String) (now : Int)

/-- Apply one participant operation. -/
def applyOp (s : Session) : ParticipantOp → Session
  | .add p now => s.add_participant p now
  | .remove cid now => s.remove_participant cid now

/-- Apply a sequence of participant operations. -/
def applyOps (s : Session) (ops : List ParticipantOp) : Session :=
  ops.foldl applyOp s

/-! ## Code executor (`app/services/code_executor.py`) -/

/-- One entry of `CodeExecutor.LANGUAGE_CONFIG`. -/
structure LangConfig where
  command : List String
  extension : String
  compile : Bool
  compile_command : Option (List String) := none
deriving DecidableEq

/-- `CodeExecutor.LANGUAGE_CONFIG` as a lookup on the language identifier. -/
def LANGUAGE_CONFIG : String → Option LangConfig
  | "python" => some { command := ["python3", "-u"], extension := ".py", compile := false }
  | "javascript" => some { command := ["node"], extension := ".js", compile := false }
  | "java" =>
      some { command := ["java"], extension := ".java", compile := true,
             compile_command := some ["javac"] }
  | "cpp" =>
      some { command := ["./a.out"], extension := ".cpp", compile := true,
             compile_command := some ["g++", "-o", "a.out"] }
  | _ => none

/-- `CodeExecutor._mock_execution`: canned reply used when server-side
execution is disabled. -/
def mock_execution (language : String) : String × String × Int × Nat × Option String :=
  if language = "javascript" then
    ("// JavaScript execution happens in the browser", "", 0, 10, none)
  else
    ("# Server-side execution is disabled for " ++ language ++
       "\n# Enable it in settings or use client-side execution", "", 0, 0, none)

/-- How a call to `CodeExecutor.execute` is resolved before any process is
spawned: either a result value produced directly (mock mode or unsupported
language), or entry into the temporary-directory compile/run path with the
selected configuration (the point at which a process is spawned). -/
inductive ExecOutcome where
  | result (stdout stderr : String) (exit_code : Int) (duration_ms : Nat) (error : Option String)
  | spawn (config : LangConfig) (code stdin : String) (time_limit_ms : Nat)
deriving DecidableEq

/-- The branching at the top of `CodeExecutor.execute`: mock mode when
`settings.enable_server_execution` is false; otherwise an immediate failure
value for a language missing from `LANGUAGE_CONFIG`; otherwise the
compile/run path. -/
def CodeExecutor.execute (enable_server_execution : Bool) (code language : String)
    (stdin : String) (time_limit_ms : Nat) : ExecOutcome :=
  if !enable_server_execution then
    match mock_execution language with
    | (o, e, c, d, err) => .result o e c d err
  else
    match LANGUAGE_CONFIG language with
    | none =>
        .result "" "" 1 0
          (some ("Language '" ++ language ++ "' is not supported for execution"))
    | some config => .spawn config code stdin time_limit_ms

/-- `CodeExecutor._truncate_output`. -/
def truncate_output (max_size : Nat) (output : String) : String :=
  if output.length > max_size then output.take max_size ++ "\n... (output truncated)"
  else output

/-- The observable behaviour of the spawned program: its streams, its exit
status, and the wall-clock time it needs to finish. -/
structure ProcRun where
  stdout : String
  stderr : String
  returncode : Int
  run_ms : Nat
deriving DecidableEq

/-- The value returned by `CodeExecutor._run_code`, together with whether the
process was forcibly killed. -/
structure RunResult where
  stdout : String
  stderr : String
  exit_code : Int
  duration_ms : Nat
  error : Option String
  killed : Bool
deriving DecidableEq

/-- `CodeExecutor._run_code`: `communicate(timeout=time_limit_ms/1000)` raises
`TimeoutExpired` exactly when the program needs longer than the limit, in
which case the process is killed and the result reports exit code `-1`,
duration equal to the configured limit, and the timeout message; on normal
completion the streams are truncated and the real exit status and elapsed
time are reported. -/
def run_code (max_output_size : Nat) (time_limit_ms : Nat) (proc : ProcRun) : RunResult :=
  if proc.run_ms > time_limit_ms then
    { stdout := ""
      stderr := ""
      exit_code := -1
      duration_ms := time_limit_ms
      error := some ("Execution timed out after " ++ toString time_limit_ms ++ "ms")
      killed := true }
  else
    { stdout := truncate_output max_output_size proc.stdout
      stderr := truncate_output max_output_size proc.stderr
      exit_code := proc.returncode
      duration_ms := proc.run_ms
      error := none
      killed := false }

/-! ## Connection manager (`app/services/connection_manager.py`) -/

/-- `ConnectionManager` state: `_connections : Dict[str, List[WebSocket]]` and
`_connection_info : Dict[str, (str, str)]`. A websocket is identified by a
`Nat`; `str(id(websocket))` becomes `toString`. -/
structure ConnectionManager where
  connections : List (String × List Nat)
  connection_info : List (String × (String × String))
deriving DecidableEq

/-- `list.remove(x)`: drop the first occurrence, `none` when absent
(`ValueError`). -/
def removeFirst : List Nat → Nat → Option (List Nat)
  | [], _ => none
  | x :: xs, ws => if x = ws then some xs else (removeFirst xs ws).map (fun l => x :: l)

/-- `ConnectionManager.connect`: append the channel to the session's list and
record the reverse binding, returning the connection identifier. -/
def ConnectionManager.connect (cm : ConnectionManager) (ws : Nat)
    (session_id client_id : String) : String × ConnectionManager :=
  let connection_id := toString ws
  let conns := (dictGet cm.connections session_id).getD [] ++ [ws]
  (connection_id,
   { connections := dictSet cm.connections session_id conns
     connection_info := dictSet cm.connection_info connection_id (session_id, client_id) })

/-- `ConnectionManager.disconnect`: reverse-lookup the binding; when found,
drop the channel from the session's list (ignoring a `ValueError`, and
deleting the session's entry when its list becomes empty) and delete the
reverse binding. Returns the bound `(session_id, client_id)` or
`(none, none)`. -/
def ConnectionManager.disconnect (cm : ConnectionManager) (ws : Nat) :
    (Option String × Option String) × ConnectionManager :=
  let connection_id := toString ws
  match dictGet cm.connection_info connection_id with
  | none => ((none, none), cm)
  | some (session_id, client_id) =>
      let connections :=
        match dictGet cm.connections session_id with
        | none => cm.connections
        | some conns =>
            match removeFirst conns ws with
            | none => cm.connections
            | some conns2 =>
                if conns2.isEmpty then dictRemove cm.connections session_id
                else dictSet cm.connections session_id conns2
      ((some session_id, some client_id),
       { connections := connections
         connection_info := dictRemove cm.connection_info connection_id })

/-! ## Websocket endpoint (`app/api/routes/websocket.py`) -/

/-- The shared state touched by the websocket endpoint: the session store and
the connection manager. -/
structure WsState where
  store : Store
  cm : ConnectionManager

/-- The `user_left` payload broadcast by the terminal cleanup. -/
structure UserLeftMessage where
  session_id : String
  client_id : String
  participant_count : Nat
deriving DecidableEq

/-- The connection-accept step of `websocket_endpoint` (after the session
existence check): the channel is registered in the connection manager with the
literal client identifier `"unknown"`. -/
def ws_accept (st : WsState) (ws : Nat) (session_id : String) : String × WsState :=
  match st.cm.connect ws session_id "unknown" with
  | (connection_id, cm2) => (connection_id, { st with cm := cm2 })

/-- The `join_session` handler: add the participant under the client-supplied
identifier; a `SessionFullException` is reported to the sender and leaves the
state unchanged. -/
def ws_join (st : WsState) (session_id client_id display_name connection_id : String)
    (now : Int) : WsState :=
  match SessionManager.add_participant st.store session_id client_id display_name
      .participant (some connection_id) now with
  | (_, store2) => { st with store := store2 }

/-- The terminal cleanup in the `finally` block of `websocket_endpoint`:
unbind the channel; when a binding existed, mark that bound client identifier
disconnected in the session store and build the `user_left` broadcast with the
session's current `participant_count`. -/
def ws_cleanup (st : WsState) (ws : Nat) (now : Int) : WsState × Option UserLeftMessage :=
  match st.cm.disconnect ws with
  | ((some session_id, some client_id), cm2) =>
      match SessionManager.remove_participant st.store session_id client_id now with
      | (_, store2) =>
          match dictGet store2 session_id with
          | some session =>
              ({ store := store2, cm := cm2 },
               some { session_id := session_id, client_id := client_id,
                      participant_count := session.participant_count })
          | none => ({ store := store2, cm := cm2 }, none)
  | (_, cm2) => ({ st with cm := cm2 }, none)

/-! ## Concrete sample data (used by witnesses and counterexamples) -/

/-- A fresh session as produced by creation (no participants, no history). -/
def sampleSession : Session :=
  { session_id := "s1", created_at := 0, host_name := "h", updated_at := 0 }

/-- `n` distinct execution results. -/
def sampleResults (n : Nat) : List ExecutionResult :=
  (List.range n).map
    (fun i =>
      { session_id := "s1", language := "python", stdout := "", stderr := "",
        exit_code := 0, duration_ms := i, success := true, timestamp := 0 })

/-- A connected participant. -/
def sampleParticipant : Participant :=
  { client_id := "alice", display_name := "Alice", role := .participant, joined_at := 0 }

/-- A session with one connected participant. -/
def sampleSessionWithAlice : Session :=
  { sampleSession with participants := [sampleParticipant] }

/-- A session at capacity: one connected participant, `max_participants = 1`. -/
def fullSession : Session :=
  { sampleSession with participants := [sampleParticipant], max_participants := 1 }

/-- Initial websocket-endpoint scenario state: one stored session, no
connections. -/
def c1State0 : WsState :=
  { store := [("s1", sampleSession)], cm := { connections := [], connection_info := [] } }

/-- The scenario state after the endpoint accepts channel `7` for session
`"s1"` and the client joins as `"alice"`. -/
def c1AfterJoin : WsState :=
  match ws_accept c1State0 7 "s1" with
  | (connection_id, st) => ws_join st "s1" "alice" "Alice" connection_id 1

/-- The scenario state and `user_left` broadcast after channel `7` closes. -/
def c1Final : WsState × Option UserLeftMessage :=
  ws_cleanup c1AfterJoin 7 2

/-!
# Theorems
-/

/-! ## Bounded execution history (capacity 50, FIFO eviction) -/

theorem cappedAppend_drop {α : Type} (cap : Nat) (hcap : 0 < cap) (l : List α) (r : α) :
    cappedAppend cap (l.drop (l.length - cap)) r
      = (l ++ [r]).drop ((l ++ [r]).length - cap) := by
  unfold cappedAppend
  by_cases h : l.length < cap
  · have h0 : l.length - cap = 0 := by omega
    have h1 : (l ++ [r]).length - cap = 0 := by simp; omega
    rw [h0, h1, List.drop_zero, List.drop_zero, if_neg]
    simp
    omega
  · have hd : (l.drop (l.length - cap)).length = cap := by
      rw [List.length_drop]; omega
    rw [if_pos]
    · have h1 : (l.drop (l.length - cap) ++ [r]).length - cap = 1 := by
        simp [hd]
      rw [h1, List.drop_append_of_le_length (by omega),
        List.drop_drop, List.drop_append_of_le_length (by simp; omega)]
      have h2 : l.length - cap + 1 = (l ++ [r]).length - cap := by simp; omega
      rw [h2]
    · simp [hd]

theorem foldl_cappedAppend_drop {α : Type} (cap : Nat) (hcap : 0 < cap) (rs : List α) :
    ∀ l : List α,
      List.foldl (cappedAppend cap) (l.drop (l.length - cap)) rs
        = (l ++ rs).drop ((l ++ rs).length - cap) := by
  induction rs with
  | nil => intro l; simp
  | cons r rs ih =>
      intro l
      rw [List.foldl_cons, cappedAppend_drop cap hcap l r, ih (l ++ [r])]
      simp

theorem foldl_cappedAppend_nil {α : Type} (cap : Nat) (hcap : 0 < cap) (rs : List α) :
    List.foldl (cappedAppend cap) [] rs = rs.drop (rs.length - cap) := by
  have h := foldl_cappedAppend_drop cap hcap rs ([] : List α)
  simpa using h

theorem appendResults_history (rs : List ExecutionResult) :
    ∀ (s : Session) (now : Int),
      (appendResults s rs now).execution_history
        = List.foldl (cappedAppend 50) s.execution_history rs := by
  induction rs with
  | nil => intro s now; rfl
  | cons r rs ih =>
      intro s now
      show (appendResults (s.add_execution_result r now) rs now).execution_history = _
      rw [ih, List.foldl_cons]
      rfl

theorem cappedAppend_length_le {α : Type} (cap : Nat) (h : List α) (r : α)
    (hlen : h.length ≤ cap) : (cappedAppend cap h r).length ≤ cap := by
  unfold cappedAppend
  by_cases hgt : (h ++ [r]).length > cap
  · rw [if_pos hgt, List.length_drop]; omega
  · rw [if_neg hgt]; omega

theorem appendResults_length_le (rs : List ExecutionResult) :
    ∀ (s : Session) (now : Int), s.execution_history.length ≤ 50 →
      (appendResults s rs now).execution_history.length ≤ 50 := by
  induction rs with
  | nil => intro s now h; exact h
  | cons r rs ih =>
      intro s now h
      show (appendResults (s.add_execution_result r now) rs now).execution_history.length ≤ 50
      exact ih _ now (cappedAppend_length_le 50 _ _ h)

/-- Claim C3: after any sequence of `add_execution_result` calls the execution
history holds at most 50 results, and eviction is FIFO: appending 60 results
to a fresh session leaves exactly the last 50 appended results in order. -/
theorem execution_history_capacity_fifo :
    ∀ (s : Session) (now : Int) (rs : List ExecutionResult),
      (s.execution_history.length ≤ 50 →
        (appendResults s rs now).execution_history.length ≤ 50) ∧
      (s.execution_history = [] → rs.length = 60 →
        (appendResults s rs now).execution_history = rs.drop 10) := by
  intro s now rs
  constructor
  · intro h
    exact appendResults_length_le rs s now h
  · intro hnil hlen
    rw [appendResults_history, hnil, foldl_cappedAppend_nil 50 (by omega), hlen]

/-- Claim C3 witness: a fresh session receiving 60 concrete results keeps
exactly the last 50, and the bound holds. -/
theorem execution_history_capacity_fifo_witness :
    (appendResults sampleSession (sampleResults 60) 0).execution_history
        = (sampleResults 60).drop 10 ∧
    (appendResults sampleSession (sampleResults 60) 0).execution_history.length ≤ 50 :=
  ⟨(execution_history_capacity_fifo sampleSession 0 (sampleResults 60)).2 rfl (by decide),
   (execution_history_capacity_fifo sampleSession 0 (sampleResults 60)).1 (by decide)⟩

/-! ## Rate limiter (per-session sliding window) -/

theorem rate_filter_window_id (t0 now : Int) (s : List Int)
    (hs : ∀ dt ∈ s, t0 ≤ dt) (hnow : now < t0 + 60) :
    s.filter (fun dt => now - 60 < dt) = s := by
  apply List.filter_eq_self.mpr
  intro a ha
  have := hs a ha
  simp only [decide_eq_true_eq]
  omega

theorem check_rate_limit_saturated (limit : Nat) (t0 now : Int) (s : List Int)
    (hs : ∀ dt ∈ s, t0 ≤ dt) (hnow : now < t0 + 60) (hlen : limit ≤ s.length) :
    check_rate_limit limit s now = (false, s) := by
  simp only [check_rate_limit]
  rw [rate_filter_window_id t0 now s hs hnow, if_pos hlen]

theorem admitSeq_append (limit : Nat) :
    ∀ (a b s : List Int),
      admitSeq limit s (a ++ b)
        = admitSeq limit s a ++ admitSeq limit (admitSeqState limit s a) b := by
  intro a
  induction a with
  | nil => intro b s; rfl
  | cons x a ih =>
      intro b s
      rcases hc : check_rate_limit limit s x with ⟨ok, ts2⟩
      simp only [List.cons_append, admitSeq, hc, admitSeqState, List.foldl_cons,
        List.append_eq]
      rw [ih b ts2]
      simp [admitSeqState, hc]

theorem admitSeqState_append (limit : Nat) (a b s : List Int) :
    admitSeqState limit s (a ++ b) = admitSeqState limit (admitSeqState limit s a) b := by
  simp [admitSeqState, List.foldl_append]

theorem admitSeq_window_true (limit : Nat) (t0 : Int) :
    ∀ (ts s : List Int),
      (∀ dt ∈ s, t0 ≤ dt) →
      (∀ t ∈ ts, t0 ≤ t ∧ t < t0 + 60) →
      s.length + ts.length ≤ limit →
      admitSeq limit s ts = List.replicate ts.length true ∧
        admitSeqState limit s ts = s ++ ts := by
  intro ts
  induction ts with
  | nil =>
      intro s hs hts hlen
      exact ⟨rfl, by simp [admitSeqState]⟩
  | cons now rest ih =>
      intro s hs hts hlen
      have hnow : t0 ≤ now ∧ now < t0 + 60 := hts now (by simp)
      have hfilter : s.filter (fun dt => now - 60 < dt) = s :=
        rate_filter_window_id t0 now s hs hnow.2
      have hcheck : check_rate_limit limit s now = (true, s ++ [now]) := by
        have hlt : s.length < limit := by
          simp only [List.length_cons] at hlen
          omega
        simp only [check_rate_limit, hfilter]
        rw [if_neg (by omega)]
      have hs2 : ∀ dt ∈ s ++ [now], t0 ≤ dt := by
        intro dt hdt
        rcases List.mem_append.mp hdt with h | h
        · exact hs dt h
        · simp only [List.mem_singleton] at h
          omega
      have hts2 : ∀ t ∈ rest, t0 ≤ t ∧ t < t0 + 60 := fun t ht => hts t (by simp [ht])
      have hlen2 : (s ++ [now]).length + rest.length ≤ limit := by
        simp only [List.length_append, List.length_singleton, List.length_cons,
          List.length_nil] at hlen ⊢
        omega
      obtain ⟨h1, h2⟩ := ih (s ++ [now]) hs2 hts2 hlen2
      simp only [admitSeqState, List.foldl_cons] at h2 ⊢
      constructor
      · simp only [admitSeq, hcheck, h1, List.length_cons, List.replicate_succ]
      · rw [hcheck]
        simpa using h2

/-- Claim C2: per-session sliding-window rate limiter. Each call prunes the
recorded timestamps to the last 60 seconds, admits and records exactly when
the remaining count is below the ceiling, and refuses without recording
otherwise; with ceiling `limit`, `limit` admits within 60 seconds of the first
all succeed, the next one within the window is refused, and a call more than
60 seconds after the first succeeds again. -/
theorem rate_limiter_sliding_window :
    ∀ (limit : Nat) (t0 : Int) (rest : List Int),
      0 < limit →
      rest.length = limit →
      (∀ t ∈ t0 :: rest, t0 ≤ t ∧ t < t0 + 60) →
      admitSeq limit [] (t0 :: rest) = List.replicate limit true ++ [false] ∧
        (∀ T, t0 + 60 < T →
          (check_rate_limit limit (admitSeqState limit [] (t0 :: rest)) T).1 = true) ∧
        (∀ ts now,
          check_rate_limit limit ts now =
            (if (ts.filter (fun dt => now - 60 < dt)).length < limit
             then (true, ts.filter (fun dt => now - 60 < dt) ++ [now])
             else (false, ts.filter (fun dt => now - 60 < dt)))) := by
  intro limit t0 rest hpos hlen hbounds
  have hdrop : (rest.drop (limit - 1)).length = 1 := by
    rw [List.length_drop]
    omega
  obtain ⟨x, hx⟩ := List.length_eq_one.mp hdrop
  have hsplit : t0 :: rest = (t0 :: rest.take (limit - 1)) ++ [x] := by
    have h := List.take_append_drop (limit - 1) rest
    rw [hx] at h
    rw [List.cons_append, h]
  have hpre_bounds : ∀ t ∈ t0 :: rest.take (limit - 1), t0 ≤ t ∧ t < t0 + 60 := by
    intro t ht
    rcases List.mem_cons.mp ht with h | h
    · exact hbounds t (by simp [h])
    · exact hbounds t (List.mem_cons_of_mem _ (List.take_subset _ _ h))
  have hpre_len : (t0 :: rest.take (limit - 1)).length = limit := by
    simp only [List.length_cons, List.length_take]
    omega
  have hpre_ge : ∀ dt ∈ t0 :: rest.take (limit - 1), t0 ≤ dt :=
    fun dt hdt => (hpre_bounds dt hdt).1
  have hx_mem : x ∈ rest := List.drop_subset _ _ (by rw [hx]; simp)
  have hx_bounds : t0 ≤ x ∧ x < t0 + 60 := hbounds x (List.mem_cons_of_mem _ hx_mem)
  obtain ⟨h1, h2⟩ :=
    admitSeq_window_true limit t0 (t0 :: rest.take (limit - 1)) [] (by simp)
      hpre_bounds (by simp [hpre_len])
  simp only [List.nil_append] at h2
  have hsat :
      check_rate_limit limit (t0 :: rest.take (limit - 1)) x
        = (false, t0 :: rest.take (limit - 1)) :=
    check_rate_limit_saturated limit t0 x _ hpre_ge hx_bounds.2 (by omega)
  refine ⟨?_, ?_, ?_⟩
  · rw [hsplit, admitSeq_append, h1, h2, hpre_len]
    simp only [admitSeq, hsat]
  · intro T hT
    rw [hsplit, admitSeqState_append, h2]
    have hstate : admitSeqState limit (t0 :: rest.take (limit - 1)) [x]
        = t0 :: rest.take (limit - 1) := by
      simp [admitSeqState, hsat]
    rw [hstate]
    simp only [check_rate_limit, List.filter_cons]
    have hpt0 : ¬(T - 60 < t0) := by omega
    simp only [decide_eq_true_eq, hpt0, if_false]
    rw [if_neg]
    have hfl : ((rest.take (limit - 1)).filter (fun dt => T - 60 < dt)).length
        ≤ (rest.take (limit - 1)).length := List.length_filter_le _ _
    simp only [List.length_take] at hfl
    omega
  · intro ts now
    simp only [check_rate_limit]
    by_cases hc : (ts.filter (fun dt => now - 60 < dt)).length < limit
    · rw [if_neg (by omega), if_pos hc]
    · rw [if_pos (by omega), if_neg hc]

/-- Claim C2 witness: with ceiling 1, an admit at time 0 succeeds, a second
admit at time 30 is refused, and an admit at time 61 succeeds again. -/
theorem rate_limiter_sliding_window_witness :
    admitSeq 1 [] [0, 30] = [true, false] ∧
      (check_rate_limit 1 (admitSeqState 1 [] [0, 30]) 61).1 = true := by
  have h := rate_limiter_sliding_window 1 0 [30] (by decide) rfl (by decide)
  exact ⟨by rw [h.1]; rfl, h.2.1 61 (by decide)⟩

/-! ## Store helpers -/

theorem dictGet_dictSet_self {α : Type} :
    ∀ (d : List (String × α)) (k : String) (v : α),
      dictGet (dictSet d k v) k = some v := by
  intro d
  induction d with
  | nil => intro k v; simp [dictSet, dictGet]
  | cons kv rest ih =>
      intro k v
      obtain ⟨k2, v2⟩ := kv
      by_cases h : k2 = k
      · simp [dictSet, h, dictGet]
      · simp [dictSet, h, dictGet, ih]

/-! ## Capacity check in `add_participant` -/

/-- Claim C4: for an existing session, `add_participant` fails with `Full`
exactly when the connected-participant count has reached `max_participants`
and the client is not already a member (a rejoin is always admitted); a `Full`
failure leaves the store, and hence the session, unmodified. -/
theorem add_participant_full_spec :
    ∀ (store : Store) (sid cid name : String) (role : ParticipantRole)
      (connId : Option String) (now : Int) (s : Session),
      dictGet store sid = some s →
      (((SessionManager.add_participant store sid cid name role connId now).1
          = .error (.full sid s.max_participants))
        ↔ (s.get_participant cid = none ∧ s.max_participants ≤ s.participant_count)) ∧
      ((s.get_participant cid = none ∧ s.max_participants ≤ s.participant_count) →
        (SessionManager.add_participant store sid cid name role connId now).2 = store) ∧
      ((s.get_participant cid).isSome = true →
        ∃ p, (SessionManager.add_participant store sid cid name role connId now).1 = .ok p) := by
  intro store sid cid name role connId now s hget
  simp only [SessionManager.add_participant, getSession, hget]
  cases hg : s.get_participant cid with
  | some p =>
      simp only [hg, Option.isNone_some, Bool.false_and, Bool.false_eq_true, if_false]
      refine ⟨?_, ?_, ?_⟩
      · simp
      · rintro ⟨hnone, -⟩
        simp at hnone
      · intro _
        exact ⟨_, rfl⟩
  | none =>
      simp only [hg, Option.isNone_none, Bool.true_and]
      by_cases hfull : s.max_participants ≤ s.participant_count
      · have hb : s.is_full = true := by
          simp [Session.is_full, hfull]
        simp only [hb, if_true]
        refine ⟨?_, ?_, ?_⟩
        · simp [hfull]
        · intro _
          trivial
        · intro hsome
          cases hsome
      · have hb : s.is_full = false := by
          simp [Session.is_full, hfull]
        simp only [hb, Bool.false_eq_true, if_false]
        refine ⟨?_, ?_, ?_⟩
        · simp [hfull]
        · rintro ⟨-, hc⟩
          exact absurd hc hfull
        · intro hsome
          cases hsome

/-- Claim C4 witness: a session with one connected member and capacity 1
rejects a new client with `Full` and the store is unchanged. -/
theorem add_participant_full_spec_witness :
    (SessionManager.add_participant [("s1", fullSession)] "s1" "bob" "Bob"
        .participant none 5).1 = .error (.full "s1" 1) ∧
    (SessionManager.add_participant [("s1", fullSession)] "s1" "bob" "Bob"
        .participant none 5).2 = [("s1", fullSession)] := by
  have h := add_participant_full_spec [("s1", fullSession)] "s1" "bob" "Bob"
    .participant none 5 fullSession rfl
  have hrhs : fullSession.get_participant "bob" = none ∧
      fullSession.max_participants ≤ fullSession.participant_count := by decide
  exact ⟨h.1.mpr hrhs, h.2.1 hrhs⟩

/-! ## Code/language round trip -/

/-- Claim C7: on an existing session, `update_session_code` followed by a get
returns the same session object, with the new code and language and a strictly
larger `updated_at`, provided the clock has advanced past the session's
previous `updated_at`. -/
theorem update_code_roundtrip :
    ∀ (store : Store) (sid c l : String) (now : Int) (s : Session),
      dictGet store sid = some s →
      s.updated_at < now →
      (SessionManager.update_session_code store sid c l now).1
          = .ok (s.update_code c l now) ∧
      dictGet (SessionManager.update_session_code store sid c l now).2 sid
          = some (s.update_code c l now) ∧
      (s.update_code c l now).current_code = c ∧
      (s.update_code c l now).current_language = l ∧
      s.updated_at < (s.update_code c l now).updated_at := by
  intro store sid c l now s hget hlt
  refine ⟨?_, ?_, rfl, rfl, hlt⟩
  · simp [SessionManager.update_session_code, getSession, hget]
  · simp [SessionManager.update_session_code, getSession, hget, dictGet_dictSet_self]

/-- Claim C7 witness: a concrete update at a later clock reading round-trips
with the new code, language and a strictly larger `updated_at`. -/
theorem update_code_roundtrip_witness :
    dictGet (SessionManager.update_session_code [("s1", sampleSession)] "s1" "X" "python" 1).2
        "s1" = some (sampleSession.update_code "X" "python" 1) ∧
    (sampleSession.update_code "X" "python" 1).current_code = "X" ∧
    (sampleSession.update_code "X" "python" 1).current_language = "python" ∧
    sampleSession.updated_at < (sampleSession.update_code "X" "python" 1).updated_at := by
  have h := update_code_roundtrip [("s1", sampleSession)] "s1" "X" "python" 1 sampleSession
    rfl (by decide)
  exact ⟨h.2.1, h.2.2.1, h.2.2.2.1, h.2.2.2.2⟩

/-! ## Soft-delete of participants -/

theorem markFirstDisconnected_map :
    ∀ (l : List Participant) (cid : String),
      (markFirstDisconnected l cid).map (fun p => p.client_id)
        = l.map (fun p => p.client_id) := by
  intro l cid
  induction l with
  | nil => rfl
  | cons p ps ih =>
      by_cases h : p.client_id = cid
      · simp [markFirstDisconnected, h]
      · simp [markFirstDisconnected, h, ih]

theorem markFirstDisconnected_marks :
    ∀ (l : List Participant) (cid : String),
      (∃ p ∈ l, p.client_id = cid) →
      ∃ q ∈ markFirstDisconnected l cid, q.client_id = cid ∧ q.is_connected = false := by
  intro l cid
  induction l with
  | nil =>
      rintro ⟨p, hp, -⟩
      cases hp
  | cons p ps ih =>
      rintro ⟨q, hq, hqc⟩
      by_cases h : p.client_id = cid
      · refine ⟨{ p with is_connected := false }, ?_, h, rfl⟩
        simp [markFirstDisconnected, h]
      · rcases List.mem_cons.mp hq with rfl | hq2
        · exact absurd hqc h
        · obtain ⟨r, hr, hrc, hrd⟩ := ih ⟨q, hq2, hqc⟩
          refine ⟨r, ?_, hrc, hrd⟩
          simp [markFirstDisconnected, h, hr]

/-- Claim C9: on an existing session, `remove_participant` always succeeds
(even for an absent client), changes no membership (the `client_id` sequence
of the participant list is untouched), and when the client is present some
record with that identifier ends up marked disconnected. -/
theorem remove_participant_soft_delete :
    ∀ (store : Store) (sid cid : String) (now : Int) (s : Session),
      dictGet store sid = some s →
      (SessionManager.remove_participant store sid cid now).1 = .ok () ∧
      dictGet (SessionManager.remove_participant store sid cid now).2 sid
          = some (s.remove_participant cid now) ∧
      (s.remove_participant cid now).participants.map (fun p => p.client_id)
          = s.participants.map (fun p => p.client_id) ∧
      ((∃ p ∈ s.participants, p.client_id = cid) →
        ∃ q ∈ (s.remove_participant cid now).participants,
          q.client_id = cid ∧ q.is_connected = false) := by
  intro store sid cid now s hget
  refine ⟨?_, ?_, ?_, ?_⟩
  · simp [SessionManager.remove_participant, getSession, hget]
  · simp [SessionManager.remove_participant, getSession, hget, dictGet_dictSet_self]
  · exact markFirstDisconnected_map s.participants cid
  · exact markFirstDisconnected_marks s.participants cid

/-- Claim C9 witness: removing an absent client from an existing session
succeeds and leaves the membership sequence unchanged. -/
theorem remove_participant_soft_delete_witness :
    (SessionManager.remove_participant [("s1", sampleSessionWithAlice)] "s1" "bob" 1).1
        = .ok () ∧
    (sampleSessionWithAlice.remove_participant "bob" 1).participants.map
        (fun p => p.client_id) = ["alice"] := by
  have h := remove_participant_soft_delete [("s1", sampleSessionWithAlice)] "s1" "bob" 1
    sampleSessionWithAlice rfl
  refine ⟨h.1, ?_⟩
  rw [h.2.2.1]
  rfl

/-! ## Uniqueness of client records -/

theorem add_participant_nodup_step (s : Session) (p : Participant) (now : Int)
    (h : (s.participants.map (fun q => q.client_id)).Nodup) :
    ((s.add_participant p now).participants.map (fun q => q.client_id)).Nodup := by
  show (((s.participants.filter (fun q => q.client_id ≠ p.client_id)) ++ [p]).map
      (fun q => q.client_id)).Nodup
  rw [List.map_append]
  apply List.Nodup.append
  · exact List.Nodup.sublist (List.Sublist.map _ (List.filter_sublist _)) h
  · simp
  · intro a ha hb
    simp only [List.map_cons, List.map_nil, List.mem_singleton] at hb
    rcases List.mem_map.mp ha with ⟨q, hq, hqa⟩
    have hne := List.of_mem_filter hq
    simp at hne
    exact hne (hqa.trans hb)

theorem applyOps_nodup :
    ∀ (ops : List ParticipantOp) (s : Session),
      (s.participants.map (fun p => p.client_id)).Nodup →
      ((applyOps s ops).participants.map (fun p => p.client_id)).Nodup := by
  intro ops
  induction ops with
  | nil => intro s h; exact h
  | cons op ops ih =>
      intro s h
      show ((applyOps (applyOp s op) ops).participants.map _).Nodup
      apply ih
      cases op with
      | add p now => exact add_participant_nodup_step s p now h
      | remove cid now =>
          show (((s.remove_participant cid now).participants).map _).Nodup
          have hm := markFirstDisconnected_map s.participants cid
          show ((markFirstDisconnected s.participants cid).map _).Nodup
          rw [hm]
          exact h

theorem nodup_filter_client_le_one :
    ∀ (l : List Participant),
      (l.map (fun p => p.client_id)).Nodup →
      ∀ cid, (l.filter (fun p => p.client_id = cid)).length ≤ 1 := by
  intro l
  induction l with
  | nil =>
      intro h cid
      simp
  | cons p ps ih =>
      intro h cid
      simp only [List.map_cons, List.nodup_cons] at h
      obtain ⟨hnotin, hnodup⟩ := h
      by_cases hc : p.client_id = cid
      · have htail : ps.filter (fun q => q.client_id = cid) = [] := by
          apply List.filter_eq_nil_iff.mpr
          intro q hq
          simp only [decide_eq_true_eq]
          intro hqc
          exact hnotin (List.mem_map.mpr ⟨q, hq, hqc.trans hc.symm⟩)
        simp [List.filter_cons, hc, htail]
      · have hd : (decide (p.client_id = cid)) = false := by simp [hc]
        simp only [List.filter_cons, hd, Bool.false_eq_true, if_false]
        exact ih hnodup cid

/-- Claim C8: after any sequence of participant add/remove operations starting
from a session whose client identifiers are duplicate-free, the participants
list still contains at most one record per client identifier. -/
theorem participants_unique_per_client :
    ∀ (ops : List ParticipantOp) (s : Session),
      (s.participants.map (fun p => p.client_id)).Nodup →
      ∀ cid,
        ((applyOps s ops).participants.filter (fun p => p.client_id = cid)).length ≤ 1 := by
  intro ops s h cid
  exact nodup_filter_client_le_one _ (applyOps_nodup ops s h) cid

/-- Claim C8 witness: a client joining twice and leaving once yields at most
one record for that client identifier. -/
theorem participants_unique_per_client_witness :
    ((applyOps sampleSession
        [.add sampleParticipant 1, .add sampleParticipant 2,
         .remove "alice" 3]).participants.filter
        (fun p => p.client_id = "alice")).length ≤ 1 :=
  participants_unique_per_client
    [.add sampleParticipant 1, .add sampleParticipant 2, .remove "alice" 3]
    sampleSession (by decide) "alice"

/-! ## Executor: unsupported language -/

/-- Claim C5 counterexample: in the default configuration
(`enable_server_execution = false`, `app/core/config.py` line 52), a call for
the unsupported language `"ruby"` returns the mock result with exit code `0`
and no error, not a failure with exit code `1` and an error set. -/
theorem execute_unsupported_language_counterexample :
    LANGUAGE_CONFIG "ruby" = none ∧
    CodeExecutor.execute false "puts 1" "ruby" "" 5000 =
      .result
        ("# Server-side execution is disabled for ruby\n# Enable it in settings or use client-side execution")
        "" 0 0 none := by
  exact ⟨rfl, rfl⟩

/-- Claim C5 (amended): when server-side execution is enabled, a call for a
language missing from `LANGUAGE_CONFIG` produces an immediate failure value
(exit code `1`, error set, zero duration) and never reaches the
process-spawning path. -/
theorem execute_unsupported_language_amended :
    ∀ (code language stdin : String) (time_limit_ms : Nat),
      LANGUAGE_CONFIG language = none →
      CodeExecutor.execute true code language stdin time_limit_ms =
        .result "" "" 1 0
          (some ("Language '" ++ language ++ "' is not supported for execution")) := by
  intro code language stdin time_limit_ms h
  simp [CodeExecutor.execute, h]

/-- Claim C5 (amended) witness: `"ruby"` with server execution enabled. -/
theorem execute_unsupported_language_amended_witness :
    CodeExecutor.execute true "puts 1" "ruby" "" 5000 =
      .result "" "" 1 0 (some "Language 'ruby' is not supported for execution") :=
  execute_unsupported_language_amended "puts 1" "ruby" "" 5000 rfl

/-! ## Executor: timeout -/

/-- Claim C6: when the program runs longer than the time limit, the process is
forcibly killed and the result reports exit code `-1`, a duration equal to the
configured limit (never the wall time actually elapsed), and the message
`Execution timed out after Nms`. -/
theorem run_code_timeout_spec :
    ∀ (max_output_size time_limit_ms : Nat) (proc : ProcRun),
      proc.run_ms > time_limit_ms →
      run_code max_output_size time_limit_ms proc =
        { stdout := "", stderr := "", exit_code := -1, duration_ms := time_limit_ms,
          error := some ("Execution timed out after " ++ toString time_limit_ms ++ "ms"),
          killed := true } ∧
      (run_code max_output_size time_limit_ms proc).duration_ms ≠ proc.run_ms := by
  intro max_output_size time_limit_ms proc h
  have he : run_code max_output_size time_limit_ms proc =
      { stdout := "", stderr := "", exit_code := -1, duration_ms := time_limit_ms,
        error := some ("Execution timed out after " ++ toString time_limit_ms ++ "ms"),
        killed := true } := by
    simp [run_code, h]
  refine ⟨he, ?_⟩
  rw [he]
  simp only []
  omega

/-- Claim C6 witness: a program needing 250ms against a 100ms limit. -/
theorem run_code_timeout_spec_witness :
    run_code 10000 100 { stdout := "x", stderr := "", returncode := 0, run_ms := 250 } =
      { stdout := "", stderr := "", exit_code := -1, duration_ms := 100,
        error := some "Execution timed out after 100ms", killed := true } :=
  (run_code_timeout_spec 10000 100
    { stdout := "x", stderr := "", returncode := 0, run_ms := 250 } (by decide)).1

/-! ## Session creation for arbitrary languages -/

/-- Claim C10: `create_session` succeeds for every initial language, returning
an active session whose code is the language's template when one exists and
the fallback `// Start coding here...` otherwise. -/
theorem create_session_any_language :
    ∀ (store : Store) (host : String) (sname : Option String) (lang : String)
      (maxp : Nat) (sid : String) (now age : Int),
      (SessionManager.create_session store host sname lang maxp sid now age).1.status
          = .active ∧
      (SessionManager.create_session store host sname lang maxp sid now age).1.current_language
          = lang ∧
      (∀ t, dictGet templates lang = some t →
        (SessionManager.create_session store host sname lang maxp sid now age).1.current_code
          = t) ∧
      (dictGet templates lang = none →
        (SessionManager.create_session store host sname lang maxp sid now age).1.current_code
          = "// Start coding here...") := by
  intro store host sname lang maxp sid now age
  refine ⟨rfl, rfl, ?_, ?_⟩
  · intro t ht
    simp [SessionManager.create_session, get_default_code, ht]
  · intro ht
    simp [SessionManager.create_session, get_default_code, ht]

/-- Claim C10 witness: an unknown language gets the fallback text and an
active session; `"python"` gets its template. -/
theorem create_session_any_language_witness :
    (SessionManager.create_session [] "h" none "ruby" 5 "s2" 0 24).1.status = .active ∧
    (SessionManager.create_session [] "h" none "ruby" 5 "s2" 0 24).1.current_code
        = "// Start coding here..." ∧
    (SessionManager.create_session [] "h" none "python" 5 "s3" 0 24).1.current_code
        = "# Welcome to the coding interview platform!\n# Start writing your Python code here\n\ndef solution():\n    print(\"Hello, World!\")\n\nsolution()" :=
  ⟨(create_session_any_language [] "h" none "ruby" 5 "s2" 0 24).1,
   (create_session_any_language [] "h" none "ruby" 5 "s2" 0 24).2.2.2 rfl,
   (create_session_any_language [] "h" none "python" 5 "s3" 0 24).2.2.1 _ rfl⟩

/-! ## Websocket terminal cleanup -/

/-- Claim C1 (code evaluated at the failing input): the endpoint registers
every channel under the literal client identifier `"unknown"`
(`websocket.py` line 71), so after `"alice"` joins over channel `7` and the
channel closes, the terminal cleanup unbinds the channel but marks the absent
participant `"unknown"` instead of `"alice"`: the stored record for `"alice"`
still has `is_connected = true`, and the `user_left` broadcast carries
`client_id = "unknown"` with a `participant_count` that still counts
`"alice"`. -/
theorem websocket_cleanup_marks_wrong_client :
    (dictGet c1Final.1.store "s1").map
        (fun s => s.participants.map (fun p => (p.client_id, p.is_connected)))
      = some [("alice", true)] ∧
    c1Final.2 = some { session_id := "s1", client_id := "unknown", participant_count := 1 } ∧
    dictGet c1Final.1.cm.connection_info "7" = none := by
  exact ⟨rfl, rfl, rfl⟩

end CodingInterview
